import Mathlib

/-!
Verification development for the prisma-redlock-test harness.

The repository exercises three concurrency-control mechanisms around a single
balance-bearing `User` row (the spec calls it an Account): a distributed lock
(redlock over Redis), a row-level pessimistic lock (`SELECT ... FOR UPDATE`
inside a bounded Prisma transaction), and an optimistic conditional update.
The definitions below are a shallow embedding of the functions in
src/src/index.ts (and its variant src/unnamed/part_000); theorems state and
settle the spec claims against them.
-/

namespace PrismaRedlock

/-- The `User` model of prisma/schema.prisma: the spec calls it an Account.
Timestamps are informational and omitted. -/
structure Account where
  id : String
  name : String
  balance : Int
  deriving Repr, DecidableEq

/-- The `Job` model of prisma/schema.prisma (a Job Record): title plus the
owning account id. Timestamps are informational and omitted. -/
structure Job where
  title : String
  userId : String
  deriving Repr, DecidableEq

/-- The state of the transactional store. The harness works with one fixed
user row (`test-user-id`), so the `User` table is a single optional row;
`jobs` is the append-only `Job` table. -/
structure Store where
  user : Option Account
  jobs : List Job
  deriving Repr, DecidableEq

/-- Typed outcome of one Guarded Transaction Executor run
(`createJobWithLock`). In the TypeScript source each abort is a thrown
`Error` / Prisma transaction-timeout error; the transaction rolls back. -/
inductive Outcome where
  | Committed
  | AbortedNotFound
  | AbortedInsufficientBalance
  | AbortedTransactionTimeout
  deriving Repr, DecidableEq

/-- Shallow embedding of `createJobWithLock` (src/src/index.ts lines 38-76).

Steps, in source order: open a transaction with `timeout := txTimeout`;
optionally take the row lock with `SELECT ... FOR UPDATE` (under contention
the caller blocks for `lockWait` milliseconds while another transaction holds
the row lock; an uncontended run has `lockWait = 0`); `findUnique` snapshot
read; validate `cost > user.balance`; `wait(processingTime)`; write
`balance := user.balance - cost` (an absolute value computed from the
snapshot read); `job.create`; commit.

The Prisma interactive-transaction timeout is a wall-clock deadline on the
whole transaction, so the transaction is aborted and fully rolled back as
soon as its elapsed time (row-lock wait plus processing wait) exceeds
`txTimeout`. Aborts of every kind leave the store unchanged (rollback). -/
def createJobWithLock (s : Store) (jobTitle : String) (cost : Int)
    (useRowLock : Bool) (processingTime lockWait txTimeout : Nat) :
    Outcome × Store :=
  let waitInTx : Nat := if useRowLock then lockWait else 0
  if txTimeout < waitInTx then
    (Outcome.AbortedTransactionTimeout, s)
  else
    match s.user with
    | none => (Outcome.AbortedNotFound, s)
    | some user =>
      if user.balance < cost then
        (Outcome.AbortedInsufficientBalance, s)
      else if txTimeout < waitInTx + processingTime then
        (Outcome.AbortedTransactionTimeout, s)
      else
        (Outcome.Committed,
          { user := some { user with balance := user.balance - cost },
            jobs := s.jobs ++ [{ title := jobTitle, userId := user.id }] })

/-- The fixed user id of the harness (src/src/index.ts line 13). -/
def userId : String := "test-user-id"

/-- Store produced by `cleanupDatabase` followed by `initializeUser`
(src/src/index.ts lines 17-36) generalised over the seeded balance: both
tables cleared, then the one user row upserted. The harness seeds 100. -/
def seededStore (b : Int) : Store :=
  { user := some { id := userId, name := "Test User", balance := b },
    jobs := [] }

/-- The concrete store every scenario starts from: balance 100, no jobs. -/
def initialStore : Store := seededStore 100

example :
    (createJobWithLock initialStore "Job 1" 30 true 1000 0 5000).1 =
      Outcome.Committed := by decide

example :
    (createJobWithLock initialStore "Job 3" 30 true 6000 0 5000).1 =
      Outcome.AbortedTransactionTimeout := by decide

/-- One Executor request as issued by the scenarios: a job title, a cost and
a simulated work duration (the `processingTime` argument). -/
structure JobReq where
  title : String
  cost : Int
  processingTime : Nat
  deriving Repr, DecidableEq

/-- How long a `createJobWithLock` transaction holds the row lock, measured
from the moment it acquires it: until commit (`lockWait + processingTime`
after transaction start, so `processingTime` after lock acquisition), until
the deadline kills it (`txTimeout` after transaction start), or essentially
immediately for the pre-wait validation aborts. -/
def rowLockHoldTime (o : Outcome) (processingTime txTimeout : Nat) : Nat :=
  match o with
  | Outcome.Committed => processingTime
  | Outcome.AbortedTransactionTimeout => txTimeout
  | _ => 0

/-- Two concurrent row-locking Executor runs against the same account, as in
`scenario4a` (src/unnamed/part_000 lines 188-197): both transactions start at
time 0 via `Promise.all`; `SELECT ... FOR UPDATE` serialises them (spec
section 5), so the run scheduled second blocks on the row lock for as long as
the first transaction holds it, with its own transaction deadline clock
already running. `a` is the run that wins the row lock. -/
def execPairRowLocked (s : Store) (a b : JobReq) (txTimeout : Nat) :
    (Outcome × Outcome) × Store :=
  let r1 := createJobWithLock s a.title a.cost true a.processingTime 0 txTimeout
  let hold := rowLockHoldTime r1.1 a.processingTime txTimeout
  let r2 := createJobWithLock r1.2 b.title b.cost true b.processingTime hold txTimeout
  ((r1.1, r2.1), r2.2)

/-- Applies a balance change of `d` committed by some other writer: the
update that a concurrent transaction commits on the user row. -/
def envWrite (s : Store) (d : Int) : Store :=
  { s with user := s.user.map fun u => { u with balance := u.balance + d } }

/-- `createJobWithLock` raced by another committed writer: identical to the
source function (src/src/index.ts lines 38-76, uncontended, so no row-lock
wait), except that during the `wait(processingTime)` at line 58 another
writer commits a balance change of `envDelta` on the same row. Such
interference is reachable when the other writer does not take the row lock
(spec section 5, the RowOnly-vs-None race of scenario 4B); the hook is kept
in every lock mode because lines 60-63 compute the written balance from the
earlier `findUnique` snapshot in every mode, which is what the theorem about
this definition states. -/
def createJobRaced (s : Store) (jobTitle : String) (cost : Int)
    (useRowLock : Bool) (processingTime txTimeout : Nat) (envDelta : Int) :
    Outcome × Store :=
  match s.user with
  | none => (Outcome.AbortedNotFound, s)
  | some user =>
    if user.balance < cost then
      (Outcome.AbortedInsufficientBalance, s)
    else
      let mid := envWrite s envDelta
      if txTimeout < processingTime then
        (Outcome.AbortedTransactionTimeout, mid)
      else
        (Outcome.Committed,
          { user := some { user with balance := user.balance - cost },
            jobs := mid.jobs ++ [{ title := jobTitle, userId := user.id }] })

/-- Outcome of one guarded job of scenario 1 or scenario 2
(src/src/index.ts lines 85-96 and 106-134): either redlock acquisition
failed (the thrown acquisition error is caught and logged, nothing else
runs), or the transaction ran and produced an `Outcome`. -/
inductive JobOutcome where
  | lockFailed
  | ran (o : Outcome)
  deriving Repr, DecidableEq

/-- One redlock acquisition attempt against the lock-service state for the
resource `locks:user:test-user-id`: `held = true` means some other caller
currently holds the lock, so the attempt fails; otherwise the caller
acquires it (the new state is held). -/
def lockAcquireOnce (held : Bool) : Option Bool :=
  if held then none else some true

/-- Shape of the guarded jobs of scenario 1 and scenario 2
(src/src/index.ts lines 85-96, 106-134): `redlock.acquire` against the lock
state `held`; on acquisition failure the error is caught and logged and no
transaction is opened; on success `createJobWithLock` runs inside a
try/finally whose finally block always executes `lock.release()`, whatever
the transaction outcome (commit, validation abort or timeout abort), before
the catch handles any transaction error. Returns the job outcome, the lock
state afterwards, and the store afterwards. -/
def guardedJob (held : Bool) (s : Store) (title : String) (cost : Int)
    (processingTime lockWait txTimeout : Nat) : JobOutcome × Bool × Store :=
  match lockAcquireOnce held with
  | none => (JobOutcome.lockFailed, held, s)
  | some _ =>
    let r := createJobWithLock s title cost true processingTime lockWait txTimeout
    (JobOutcome.ran r.1, false, r.2)

example :
    (execPairRowLocked initialStore ⟨"Job 4A.1", 20, 1400⟩ ⟨"Job 4A.2", 30, 1200⟩
      5500).1 = (Outcome.Committed, Outcome.Committed) := by decide

example :
    (execPairRowLocked initialStore ⟨"Job 4A.1", 20, 1400⟩ ⟨"Job 4A.2", 30, 1200⟩
      5500).2.user = some { id := userId, name := "Test User", balance := 50 } := by
  decide

/-! ### The redlock client (Lock-Acquisition Retry Policy) -/

/-- The retry settings the harness passes to the redlock constructor
(src/src/index.ts lines 7-11): up to `retryCount` retries after the first
attempt, each preceded by a wait of `retryDelay` plus a random jitter of at
most `retryJitter` milliseconds. -/
structure RedlockSettings where
  retryCount : Nat
  retryDelay : Nat
  retryJitter : Nat
  deriving Repr, DecidableEq

/-- Result of `redlock.acquire`: a lock handle valid for `validityMs`
(the `duration` argument of the call, i.e. the TTL of the lock), or the
error thrown after the last failed attempt, carrying that attempt's cause. -/
inductive AcquireResult where
  | acquired (validityMs : Nat)
  | failure (lastCause : String)
  deriving Repr, DecidableEq

/-- Retry loop of the redlock client, `remaining` retries left, about to make
attempt number `i`, having already waited `waited` milliseconds between
attempts. `att i = none` means attempt `i` reaches quorum and succeeds;
`att i = some cause` means it fails with that cause (contention, network
error, quorum not reached). `jit i` is the jitter drawn before retry `i`.
Returns the result together with the total between-attempt wait. -/
def redlockAcquireGo (att : Nat → Option String) (jit : Nat → Nat)
    (delay ttl : Nat) : Nat → Nat → Nat → AcquireResult × Nat
  | 0, i, waited =>
    match att i with
    | none => (AcquireResult.acquired ttl, waited)
    | some cause => (AcquireResult.failure cause, waited)
  | Nat.succ n, i, waited =>
    match att i with
    | none => (AcquireResult.acquired ttl, waited)
    | some _ => redlockAcquireGo att jit delay ttl n (i + 1) (waited + delay + jit i)

/-- `redlock.acquire([resource], duration)` as called at
src/src/index.ts line 86 with the settings of lines 7-11: the `duration`
argument is the validity time (TTL) of the lock being requested; the number
of attempts and the waits between them come only from the settings. -/
def redlockAcquire (cfg : RedlockSettings) (att : Nat → Option String)
    (jit : Nat → Nat) (duration : Nat) : AcquireResult × Nat :=
  redlockAcquireGo att jit cfg.retryDelay duration cfg.retryCount 0 0

/-- The settings object built at src/src/index.ts lines 7-11. -/
def harnessRedlockSettings : RedlockSettings :=
  { retryCount := 2, retryDelay := 200, retryJitter := 50 }

/-! ### The optimistic-concurrency variant (scenario 5) -/

/-- Progress of one `updateBalance(amount)` call of scenario 5
(src/src/index.ts lines 167-185). `pending`: has not yet executed its
`findUnique` snapshot read. `readDone b`: read balance `b`, now inside
`wait(1000)`. `updated`: the conditional update matched and the transaction
committed. `aborted`: the conditional update matched zero rows (the stored
balance no longer equalled the snapshot), Prisma threw, the transaction
aborted and the error was caught and logged; the call is never retried. -/
inductive OptPhase where
  | pending
  | readDone (snapshot : Int)
  | updated
  | aborted
  deriving Repr, DecidableEq

/-- Interleaved state of the scenario-5 `Promise.all` fan-out: the committed
balance of the user row, and the phase of each `updateBalance` call. -/
structure OptState where
  balance : Int
  phases : List OptPhase
  deriving Repr, DecidableEq

/-- Starting state: seeded balance, every call still pending. -/
def optInit (b : Int) (n : Nat) : OptState :=
  { balance := b, phases := List.replicate n OptPhase.pending }

/-- One scheduler step: call `i` performs its next atomic store access.
A pending call executes its snapshot read of the committed balance. A call
that has read `snap` executes
`update(where: id and balance = snap, data: balance = snap + delta)`:
if the committed balance still equals `snap` the row matches and the write
commits `snap + delta`; otherwise zero rows match, Prisma throws and the
transaction aborts with no write. Finished calls (and indices out of range)
do nothing. -/
def optStep (deltas : List Int) (st : OptState) (i : Nat) : OptState :=
  match st.phases.get? i, deltas.get? i with
  | some OptPhase.pending, some _ =>
    { st with phases := st.phases.set i (OptPhase.readDone st.balance) }
  | some (OptPhase.readDone snap), some d =>
    if st.balance = snap then
      { balance := snap + d, phases := st.phases.set i OptPhase.updated }
    else
      { st with phases := st.phases.set i OptPhase.aborted }
  | _, _ => st

/-- Runs scenario 5: the calls `updateBalance(deltas[i])` race from the
seeded balance `b`, their atomic store accesses interleaved according to
`sched` (an arbitrary list of call indices). -/
def optRun (deltas : List Int) (b : Int) (sched : List Nat) : OptState :=
  sched.foldl (optStep deltas) (optInit b deltas.length)

/-- Sum of the deltas of exactly the calls whose phase is `updated`, i.e.
the calls that reported success. -/
def appliedSum : List Int → List OptPhase → Int
  | d :: ds, p :: ps =>
    (if p = OptPhase.updated then d else 0) + appliedSum ds ps
  | _, _ => 0

example :
    (optRun [10, 20, -5] 100 [0, 1, 2, 0, 1, 2]).balance = 110 := by decide

example :
    (optRun [10, 20, -5] 100 [0, 0, 1, 1, 2, 2]).balance = 125 := by decide

/-! ### The Contention Scenario Driver (runScenarios) -/

/-- What the catch block of a scenario that wraps its body in try/catch
(scenarios 1, 2, 3 and the per-call catches of scenario 5) logs: the error
message if the body rejected, nothing otherwise. The scenario itself then
resolves either way. -/
def scenarioCatchLog : Except String Unit → List String
  | Except.ok _ => []
  | Except.error e => [e]

/-- `Promise.all` over the two job promises of scenario 4
(src/src/index.ts lines 156-159): resolves when both resolve, rejects with
the first rejection otherwise. -/
def promiseAll2 (a b : Except String Unit) : Except String Unit :=
  match a, b with
  | Except.error e, _ => Except.error e
  | Except.ok _, Except.error e => Except.error e
  | Except.ok _, Except.ok _ => Except.ok ()

/-- `runScenarios` (src/src/index.ts lines 194-205) with the top-level
`.catch(console.error)` of line 202. Scenarios 1, 2 and 3 wrap their work in
try/catch, so they log any body error (`b1`-`b3`) and always resolve.
Scenario 4 awaits `Promise.all` of its two `createJobWithLock` promises
(`j41`, `j42`) with no surrounding try/catch, so a rejection of either job
rejects scenario 4 and propagates out of `runScenarios`, skipping the later
scenarios; the top-level catch logs it. Scenario 5 catches per call (`b5`
stands for a call body) and always resolves. Returns the indices of the
scenarios that executed, the log lines of the in-scenario catches, and the
error reaching the top-level catch, if any. -/
def runScenariosModel (b1 b2 b3 j41 j42 b5 : Except String Unit) :
    List Nat × List String × Option String :=
  let log123 := scenarioCatchLog b1 ++ scenarioCatchLog b2 ++ scenarioCatchLog b3
  match promiseAll2 j41 j42 with
  | Except.error e => ([1, 2, 3, 4], log123, some e)
  | Except.ok _ => ([1, 2, 3, 4, 5], log123 ++ scenarioCatchLog b5, none)

/-! ## Theorems for the claims -/

/-- C2: an Executor run against an existing Account whose cost exceeds the
current balance returns Aborted(insufficient-balance) and leaves the store
unchanged: no Job Record is created and the balance is not modified. (The
run is assumed to reach its snapshot read, i.e. its row-lock wait does not
already exceed the transaction deadline; an uncontended run has
`lockWait = 0`.) -/
theorem c2_insufficient_balance_atomic (s : Store) (u : Account)
    (title : String) (cost : Int) (rl : Bool) (pt lw T : Nat)
    (hu : s.user = some u) (hlw : (if rl then lw else 0) ≤ T)
    (hc : u.balance < cost) :
    createJobWithLock s title cost rl pt lw T =
      (Outcome.AbortedInsufficientBalance, s) := by
  unfold createJobWithLock
  simp [hu, hc, Nat.not_lt.mpr hlw]

/-- C2 witness: a run of cost 200 against the seeded balance of 100 aborts
with insufficient balance and leaves the seeded store intact. -/
theorem c2_witness :
    createJobWithLock initialStore "Job X" 200 true 1000 0 5000 =
      (Outcome.AbortedInsufficientBalance, initialStore) :=
  c2_insufficient_balance_atomic initialStore
    { id := userId, name := "Test User", balance := 100 }
    "Job X" 200 true 1000 0 5000 rfl (by decide) (by decide)

/-- C3 counterexample: the claim says every run whose simulated work
duration exceeds the transaction deadline returns
Aborted(transaction-timeout); but validation runs before the
`wait(processingTime)`, so a run with cost 200 against balance 100 and
duration 6000 over the 5000 deadline returns Aborted(insufficient-balance),
not the timeout abort. -/
theorem c3_counterexample :
    (createJobWithLock initialStore "Job 3" 200 true 6000 0 5000).1 =
        Outcome.AbortedInsufficientBalance ∧
    (createJobWithLock initialStore "Job 3" 200 true 6000 0 5000).1 ≠
        Outcome.AbortedTransactionTimeout := by decide

/-- C3 (amended): an Executor run that passes validation (the Account
exists and cost is at most its balance) and whose simulated work duration
exceeds the transaction deadline always returns
Aborted(transaction-timeout), and the store is unchanged afterward: full
rollback, no Job Record, no balance change. -/
theorem c3_timeout_rolls_back (s : Store) (u : Account) (title : String)
    (cost : Int) (rl : Bool) (pt T : Nat)
    (hu : s.user = some u) (hc : cost ≤ u.balance) (ht : T < pt) :
    createJobWithLock s title cost rl pt 0 T =
      (Outcome.AbortedTransactionTimeout, s) := by
  unfold createJobWithLock
  have h1 : ¬ (u.balance < cost) := by omega
  have h2 : (if rl then 0 else 0) = 0 := by cases rl <;> rfl
  simp [hu, h1, h2, ht]

/-- C3 witness: scenario 3 (cost 30, duration 6000, deadline 5000) aborts
with the timeout and leaves the seeded store intact. -/
theorem c3_witness :
    createJobWithLock initialStore "Job 3" 30 true 6000 0 5000 =
      (Outcome.AbortedTransactionTimeout, initialStore) :=
  c3_timeout_rolls_back initialStore
    { id := userId, name := "Test User", balance := 100 }
    "Job 3" 30 true 6000 5000 rfl (by decide) (by decide)

/-- C4: after every Executor run, either the run committed and the store
holds exactly the debited balance together with the new Job Record (both
written inside the same transaction), or the run did not commit and the
store is exactly as before: neither the debit nor the Job Record can be
observed without the other. -/
theorem c4_job_record_iff_debit (s : Store) (title : String) (cost : Int)
    (rl : Bool) (pt lw T : Nat) :
    ((createJobWithLock s title cost rl pt lw T).1 = Outcome.Committed ∧
      ∃ u, s.user = some u ∧
        (createJobWithLock s title cost rl pt lw T).2 =
          { user := some { u with balance := u.balance - cost },
            jobs := s.jobs ++ [{ title := title, userId := u.id }] }) ∨
    ((createJobWithLock s title cost rl pt lw T).1 ≠ Outcome.Committed ∧
      (createJobWithLock s title cost rl pt lw T).2 = s) := by
  unfold createJobWithLock
  by_cases h1 : T < (if rl then lw else 0)
  · right
    simp [h1]
  · cases hu : s.user with
    | none => right; simp [h1, hu]
    | some u =>
      by_cases h2 : u.balance < cost
      · right; simp [h1, hu, h2]
      · by_cases h3 : T < (if rl then lw else 0) + pt
        · right; simp [h1, hu, h2, h3]
        · left
          refine ⟨by simp [h1, hu, h2, h3], u, rfl, by simp [h1, hu, h2, h3]⟩

/-- C5: every guarded job that acquired the distributed lock releases it on
every exit path (the store argument is arbitrary, so the body may commit,
abort on validation, or abort on timeout): afterwards the lock is free and
a subsequent acquisition attempt for the same resource succeeds
immediately. -/
theorem c5_lock_always_released (s : Store) (title : String) (cost : Int)
    (pt lw T : Nat) :
    (guardedJob false s title cost pt lw T).2.1 = false ∧
    lockAcquireOnce (guardedJob false s title cost pt lw T).2.1 = some true := by
  exact ⟨rfl, rfl⟩

/-- C8: when distributed lock acquisition fails (the lock is held by
another caller), the guarded job terminates as lock-failed without opening
a transaction: the store is returned exactly as it was, and the outcome is
not a transaction outcome. -/
theorem c8_lock_unavailable_no_mutation (s : Store) (title : String)
    (cost : Int) (pt lw T : Nat) :
    guardedJob true s title cost pt lw T =
      (JobOutcome.lockFailed, true, s) := rfl

/-- C10: a successful Executor run commits the balance it read in its own
snapshot minus its cost, in every lock mode: the update writes an absolute
value computed from the earlier read, so the committed balance is
never negative (validation ensured cost is at most the snapshot balance),
and it is independent of any balance change another writer committed
between the read and the write (that change is overwritten). -/
theorem c10_absolute_write (s : Store) (u : Account) (title : String)
    (cost : Int) (rl : Bool) (pt T : Nat) (d : Int)
    (hu : s.user = some u)
    (hcommit : (createJobRaced s title cost rl pt T d).1 = Outcome.Committed) :
    (createJobRaced s title cost rl pt T d).2.user =
        some { u with balance := u.balance - cost } ∧
    0 ≤ u.balance - cost ∧
    (createJobRaced s title cost rl pt T d).2.user =
      (createJobRaced s title cost rl pt T 0).2.user := by
  unfold createJobRaced at hcommit ⊢
  by_cases h2 : u.balance < cost
  · simp [hu, h2] at hcommit
  · by_cases h3 : T < pt
    · simp [hu, h2, h3] at hcommit
    · refine ⟨by simp [hu, h2, h3], by omega, by simp [hu, h2, h3]⟩

/-- C10 witness: a run of cost 30 against the seeded balance of 100, raced
by a writer that commits a delta of 37 during the wait, still commits
balance 70. -/
theorem c10_witness :
    (createJobRaced initialStore "Job 4B.1" 30 true 1000 5000 37).2.user =
        some { id := userId, name := "Test User", balance := 70 } ∧
    (0 : Int) ≤ 100 - 30 ∧
    (createJobRaced initialStore "Job 4B.1" 30 true 1000 5000 37).2.user =
      (createJobRaced initialStore "Job 4B.1" 30 true 1000 5000 0).2.user :=
  c10_absolute_write initialStore
    { id := userId, name := "Test User", balance := 100 }
    "Job 4B.1" 30 true 1000 5000 37 rfl (by decide)

/-- C1 counterexample: two concurrent row-locking runs with combined cost
60 at most the initial balance 100, but with work durations 6000 and 1000
against the 5000 deadline: the first run exceeds the deadline and is rolled
back, the second then times out while holding the row lock it waited 5000
for, so neither commits — refuting the claim that every such pair commits. -/
theorem c1_counterexample :
    ¬ ((execPairRowLocked initialStore ⟨"Job A", 30, 6000⟩ ⟨"Job B", 30, 1000⟩
        5000).1 = (Outcome.Committed, Outcome.Committed)) := by decide

/-- C1 (amended): for every pair of concurrent row-locking Executor runs
against the same seeded Account whose combined cost is at most the initial
balance, provided the two (non-negative-cost) runs fit the transaction
deadline under row-lock serialisation (the sum of their work durations is
at most the deadline), both runs commit, the final balance is the initial
balance minus the sum of the costs, and exactly two Job Records exist
afterward. -/
theorem c1_pair_rowlock_commits (init : Int) (a b : JobReq) (T : Nat)
    (ha : 0 ≤ a.cost) (hb : 0 ≤ b.cost)
    (hsum : a.cost + b.cost ≤ init)
    (ht : a.processingTime + b.processingTime ≤ T) :
    (execPairRowLocked (seededStore init) a b T).1 =
        (Outcome.Committed, Outcome.Committed) ∧
    (execPairRowLocked (seededStore init) a b T).2.user =
        some { id := userId, name := "Test User",
               balance := init - a.cost - b.cost } ∧
    (execPairRowLocked (seededStore init) a b T).2.jobs.length = 2 := by
  have h1 : ¬ (init < a.cost) := by omega
  have h2 : ¬ (T < (0 : Nat) + a.processingTime) := by omega
  have h3 : ¬ (T < a.processingTime) := by omega
  have h4 : ¬ (init - a.cost < b.cost) := by omega
  have h5 : ¬ (T < a.processingTime + b.processingTime) := by omega
  unfold execPairRowLocked createJobWithLock rowLockHoldTime seededStore
  simp [h1, h2, h3, h4, h5]

/-- C1 witness: the scenario-4A pair (costs 20 and 30, durations 1400 and
1200, deadline 5500) both commit, final balance 50, two Job Records. -/
theorem c1_witness :
    (execPairRowLocked (seededStore 100) ⟨"Job 4A.1", 20, 1400⟩
        ⟨"Job 4A.2", 30, 1200⟩ 5500).1 =
        (Outcome.Committed, Outcome.Committed) ∧
    (execPairRowLocked (seededStore 100) ⟨"Job 4A.1", 20, 1400⟩
        ⟨"Job 4A.2", 30, 1200⟩ 5500).2.user =
        some { id := userId, name := "Test User", balance := 100 - 20 - 30 } ∧
    (execPairRowLocked (seededStore 100) ⟨"Job 4A.1", 20, 1400⟩
        ⟨"Job 4A.2", 30, 1200⟩ 5500).2.jobs.length = 2 :=
  c1_pair_rowlock_commits 100 ⟨"Job 4A.1", 20, 1400⟩ ⟨"Job 4A.2", 30, 1200⟩
    5500 (by decide) (by decide) (by decide) (by decide)

/-- Helper: rewriting a non-updated phase to another non-updated phase does
not change the applied-delta sum. -/
lemma appliedSum_set_not_updated :
    ∀ (ds : List Int) (ps : List OptPhase) (i : Nat) (p q : OptPhase),
      ps.get? i = some p → p ≠ OptPhase.updated → q ≠ OptPhase.updated →
      appliedSum ds (ps.set i q) = appliedSum ds ps := by
  intro ds ps
  induction ps generalizing ds with
  | nil => intro i p q hp _ _; simp at hp
  | cons p0 ps ih =>
    intro i p q hp hpne hqne
    cases i with
    | zero =>
      simp at hp
      cases ds with
      | nil => simp [appliedSum]
      | cons d ds =>
        subst hp
        simp [appliedSum, hpne, hqne]
    | succ j =>
      simp only [List.get?] at hp
      cases ds with
      | nil => simp [appliedSum]
      | cons d ds =>
        simp [appliedSum]
        exact ih ds j p q hp hpne hqne

/-- Helper: rewriting a non-updated phase at index `i` to updated adds
exactly the delta at index `i` to the applied-delta sum. -/
lemma appliedSum_set_updated :
    ∀ (ds : List Int) (ps : List OptPhase) (i : Nat) (p : OptPhase) (d : Int),
      ps.get? i = some p → p ≠ OptPhase.updated → ds.get? i = some d →
      appliedSum ds (ps.set i OptPhase.updated) = appliedSum ds ps + d := by
  intro ds ps
  induction ps generalizing ds with
  | nil => intro i p d hp _ _; simp at hp
  | cons p0 ps ih =>
    intro i p d hp hpne hd
    cases i with
    | zero =>
      simp at hp
      cases ds with
      | nil => simp at hd
      | cons d0 ds =>
        simp at hd
        subst hp; subst hd
        simp [appliedSum, hpne]
        ring
    | succ j =>
      simp only [List.get?] at hp
      cases ds with
      | nil => simp at hd
      | cons d0 ds =>
        simp only [List.get?] at hd
        simp [appliedSum]
        rw [ih ds j p d hp hpne hd]
        ring


/-- Helper: one scheduler step of scenario 5 preserves the accounting
invariant: the committed balance is the seeded balance plus the sum of the
deltas of the calls that have reported success. -/
lemma optStep_balance (deltas : List Int) (b : Int) (st : OptState) (i : Nat)
    (h : st.balance = b + appliedSum deltas st.phases) :
    (optStep deltas st i).balance =
      b + appliedSum deltas (optStep deltas st i).phases := by
  unfold optStep
  cases hp : st.phases.get? i with
  | none => simpa [hp] using h
  | some p =>
    cases hd : deltas.get? i with
    | none =>
      cases p <;> simpa [hp, hd] using h
    | some d =>
      cases p with
      | pending =>
        have hs := appliedSum_set_not_updated deltas st.phases i
          OptPhase.pending (OptPhase.readDone st.balance) hp (by simp) (by simp)
        simpa [hp, hd, hs] using h
      | readDone snap =>
        by_cases hb : st.balance = snap
        · have hs := appliedSum_set_updated deltas st.phases i
            (OptPhase.readDone snap) d hp (by simp) hd
          simp [hp, hd, hb, hs]
          omega
        · have hs := appliedSum_set_not_updated deltas st.phases i
            (OptPhase.readDone snap) OptPhase.aborted hp (by simp) (by simp)
          simpa [hp, hd, hb, hs] using h
      | updated => simpa [hp, hd] using h
      | aborted => simpa [hp, hd] using h

/-- Helper: the accounting invariant carries over any schedule. -/
lemma optFold_balance (deltas : List Int) (b : Int) :
    ∀ (sched : List Nat) (st : OptState),
      st.balance = b + appliedSum deltas st.phases →
      (sched.foldl (optStep deltas) st).balance =
        b + appliedSum deltas ((sched.foldl (optStep deltas) st)).phases := by
  intro sched
  induction sched with
  | nil => intro st h; simpa using h
  | cons i rest ih =>
    intro st h
    exact ih (optStep deltas st i) (optStep_balance deltas b st i h)

/-- Helper: in the starting state no call has succeeded, so the applied sum
is zero. -/
lemma appliedSum_replicate_pending :
    ∀ (n : Nat) (ds : List Int),
      appliedSum ds (List.replicate n OptPhase.pending) = 0 := by
  intro n
  induction n with
  | zero => intro ds; cases ds <;> simp [appliedSum]
  | succ m ih =>
    intro ds
    cases ds with
    | nil => simp [appliedSum]
    | cons d ds => simp [List.replicate, appliedSum, ih ds]

/-- C6: for every seeded balance, every list of deltas and every
interleaving of the concurrent updateBalance calls, the final balance is
exactly the seeded balance plus the sum of the deltas of the calls that
reported success (phase updated); moreover a call whose conditional write
matched zero rows is aborted for good: a further scheduler step on it
changes nothing, so it is never retried and its delta is never applied. -/
theorem c6_no_silent_double_apply (deltas : List Int) (b : Int)
    (sched : List Nat) :
    ((optRun deltas b sched).balance =
        b + appliedSum deltas (optRun deltas b sched).phases) ∧
    (∀ (st : OptState) (i : Nat),
      st.phases.get? i = some OptPhase.aborted →
      optStep deltas st i = st) := by
  constructor
  · unfold optRun
    exact optFold_balance deltas b sched (optInit b deltas.length)
      (by simp [optInit, appliedSum_replicate_pending])
  · intro st i hab
    unfold optStep
    rw [hab]

/-- C6 witness: the concrete scenario-5 race (deltas +10, +20, -5 against
balance 100) under a round-robin interleaving satisfies the accounting
equation, and a concrete aborted call is left untouched by a further step. -/
theorem c6_witness :
    ((optRun [10, 20, -5] 100 [0, 1, 2, 0, 1, 2]).balance =
        100 + appliedSum [10, 20, -5]
          (optRun [10, 20, -5] 100 [0, 1, 2, 0, 1, 2]).phases) ∧
    optStep [10, 20, -5] ⟨100, [OptPhase.aborted]⟩ 0 =
      ⟨100, [OptPhase.aborted]⟩ :=
  ⟨(c6_no_silent_double_apply [10, 20, -5] 100 [0, 1, 2, 0, 1, 2]).1,
   (c6_no_silent_double_apply [10, 20, -5] 100 [0, 1, 2, 0, 1, 2]).2
     ⟨100, [OptPhase.aborted]⟩ 0 rfl⟩

/-- Helper: if every attempt up to the remaining-retry budget fails, the
redlock retry loop returns the failure of the last attempt, and its total
between-attempt wait is bounded by the number of retries times the delay
plus the jitter bound. -/
lemma redlockAcquireGo_all_fail (att : Nat → Option String) (jit : Nat → Nat)
    (delay ttl J : Nat) (hjit : ∀ i, jit i ≤ J) :
    ∀ (n i w : Nat) (c : String),
      (∀ k, k ≤ n → att (i + k) ≠ none) →
      att (i + n) = some c →
      (redlockAcquireGo att jit delay ttl n i w).1 = AcquireResult.failure c ∧
      (redlockAcquireGo att jit delay ttl n i w).2 ≤ w + n * (delay + J) := by
  intro n
  induction n with
  | zero =>
    intro i w c _ hlast
    rw [Nat.add_zero] at hlast
    constructor
    · simp [redlockAcquireGo, hlast]
    · simp [redlockAcquireGo, hlast]
  | succ m ih =>
    intro i w c hfail hlast
    cases hc0 : att i with
    | none =>
      exact absurd hc0 (by simpa using hfail 0 (Nat.zero_le _))
    | some c0 =>
      have hrec := ih (i + 1) (w + delay + jit i) c
        (fun k hk => by
          have hk1 := hfail (k + 1) (by omega)
          have : i + (k + 1) = i + 1 + k := by omega
          rwa [this] at hk1)
        (by
          have : i + 1 + m = i + (m + 1) := by omega
          rw [this]; exact hlast)
      constructor
      · simp only [redlockAcquireGo, hc0]
        exact hrec.1
      · simp only [redlockAcquireGo, hc0]
        have h2 := hrec.2
        have hj := hjit i
        have hmul : (m + 1) * (delay + J) = m * (delay + J) + (delay + J) := by
          ring
        rw [hmul]
        generalize m * (delay + J) = A at h2 ⊢
        omega

/-- C7 counterexample: the duration argument of redlock.acquire is the TTL
of the requested lock, not an overall timeout bounding the total wait: with
the settings built at src/src/index.ts lines 7-11 (2 retries of 200 ms
delay) and every attempt failing, a call passing duration 1 still waits
400 ms between attempts — far more than the passed duration — before
failing. -/
theorem c7_counterexample :
    (redlockAcquire harnessRedlockSettings (fun _ => some "quorum not reached")
        (fun _ => 0) 1).1 = AcquireResult.failure "quorum not reached" ∧
    ¬ ((redlockAcquire harnessRedlockSettings
        (fun _ => some "quorum not reached") (fun _ => 0) 1).2 ≤ 1) := by
  decide

/-- C7 (amended): the duration argument of the retry policy acquire call is
the validity time (TTL) of the requested lock, not a bound on the wait; the
total wait is bounded by the configured attempt budget: when every attempt
fails (jitter drawn within the configured bound), the call returns
AcquisitionFailure carrying the cause of the last attempt, after a total
between-attempt wait of at most retryCount times (retryDelay plus
retryJitter). -/
theorem c7_retry_exhaustion (cfg : RedlockSettings) (att : Nat → Option String)
    (jit : Nat → Nat) (duration : Nat) (c : String)
    (hjit : ∀ i, jit i ≤ cfg.retryJitter)
    (hfail : ∀ i, i ≤ cfg.retryCount → att i ≠ none)
    (hlast : att cfg.retryCount = some c) :
    (redlockAcquire cfg att jit duration).1 = AcquireResult.failure c ∧
    (redlockAcquire cfg att jit duration).2 ≤
      cfg.retryCount * (cfg.retryDelay + cfg.retryJitter) := by
  have h := redlockAcquireGo_all_fail att jit cfg.retryDelay duration
    cfg.retryJitter hjit cfg.retryCount 0 0 c
    (fun k hk => by simpa using hfail k hk)
    (by simpa using hlast)
  unfold redlockAcquire
  simpa using h

/-- C7 witness: with the harness settings, every attempt failing with
cause quorum-not-reached and zero jitter, the acquire call for a 5000 ms
lock fails with that cause after at most 500 ms of waiting. -/
theorem c7_witness :
    (redlockAcquire harnessRedlockSettings (fun _ => some "quorum not reached")
        (fun _ => 0) 5000).1 = AcquireResult.failure "quorum not reached" ∧
    (redlockAcquire harnessRedlockSettings (fun _ => some "quorum not reached")
        (fun _ => 0) 5000).2 ≤ 2 * (200 + 50) :=
  c7_retry_exhaustion harnessRedlockSettings (fun _ => some "quorum not reached")
    (fun _ => 0) 5000 "quorum not reached"
    (fun _ => Nat.zero_le 50) (fun _ _ => by simp) rfl

/-- C9 counterexample: scenario 4 awaits Promise.all of its two jobs with
no surrounding try/catch, so one rejected job rejects scenario 4, the
rejection propagates out of runScenarios, and scenario 5 never executes —
refuting the claim that one scenario failure never aborts the overall run. -/
theorem c9_counterexample :
    (runScenariosModel (Except.ok ()) (Except.ok ()) (Except.ok ())
        (Except.error "Transaction already closed") (Except.ok ())
        (Except.ok ())).1 = [1, 2, 3, 4] ∧
    ¬ (5 ∈ (runScenariosModel (Except.ok ()) (Except.ok ()) (Except.ok ())
        (Except.error "Transaction already closed") (Except.ok ())
        (Except.ok ())).1) := by decide

/-- C9 (amended): failures inside scenarios 1-3 (and the per-call catches
of scenario 5) are caught, logged as their distinguishable error message,
and never abort the overall run: when scenario 4 resolves, all five
scenarios execute. But a failure of either scenario-4 job propagates out of
its Promise.all uncaught: the driver stops after scenario 4 — scenario 5
does not execute — and the error reaches only the top-level catch, which
receives it intact. -/
theorem c9_driver_propagation (b1 b2 b3 j41 j42 b5 : Except String Unit) :
    (promiseAll2 j41 j42 = Except.ok () →
      (runScenariosModel b1 b2 b3 j41 j42 b5).1 = [1, 2, 3, 4, 5]) ∧
    (∀ e, promiseAll2 j41 j42 = Except.error e →
      (runScenariosModel b1 b2 b3 j41 j42 b5).1 = [1, 2, 3, 4] ∧
      (runScenariosModel b1 b2 b3 j41 j42 b5).2.2 = some e) ∧
    (∀ e, b1 = Except.error e →
      e ∈ (runScenariosModel b1 b2 b3 j41 j42 b5).2.1) := by
  refine ⟨?_, ?_, ?_⟩
  · intro h
    unfold runScenariosModel
    rw [h]
  · intro e h
    unfold runScenariosModel
    rw [h]
    exact ⟨rfl, rfl⟩
  · intro e h
    unfold runScenariosModel
    cases hp : promiseAll2 j41 j42 <;> simp [scenarioCatchLog, h]

/-- C9 witness: with a concrete scenario-4 job rejection, the driver runs
only scenarios 1-4 and the top-level catch receives that exact error. -/
theorem c9_witness :
    (runScenariosModel (Except.ok ()) (Except.ok ()) (Except.ok ())
        (Except.error "P2028 transaction timeout") (Except.ok ())
        (Except.ok ())).1 = [1, 2, 3, 4] ∧
    (runScenariosModel (Except.ok ()) (Except.ok ()) (Except.ok ())
        (Except.error "P2028 transaction timeout") (Except.ok ())
        (Except.ok ())).2.2 = some "P2028 transaction timeout" :=
  (c9_driver_propagation (Except.ok ()) (Except.ok ()) (Except.ok ())
      (Except.error "P2028 transaction timeout") (Except.ok ())
      (Except.ok ())).2.1 "P2028 transaction timeout" rfl

end PrismaRedlock
